import Mathlib

/-!
Shallow embedding of the x-draw-backend real-time whiteboard core
(`src/webSocketServer/WebSocketServer.ts`).

The Redis-backed shared state (board documents, room member sets,
presence entries, user status keys) together with the process-local
connection registry is modelled by `ServerState`.  Handler side effects
(local socket writes, bus publishes, board writes) are recorded as an
ordered trace of `Op` values, in program order of the corresponding
calls.  A plain Redis `SET` (without `EX`/`KEEPTTL`) removes any
existing TTL from the key, so a stored board carries its lifetime as an
`Option Nat` which plain `SET` resets to `none`.
-/

namespace XDraw

/-- A drawing element (`Element` union of `src/types.ts`).  The server
code inspects only `id`, `type` and (for images) `url`; all remaining
geometry/style fields are copied verbatim by the object spreads and are
abstracted into the single field `props`.  A JS element without a `url`
field is `url := none`; the empty string is falsy in JS, which matters
for the `(ele as ImageElement).url` truthiness test. -/
structure Element where
  id : String
  type : String
  url : Option String
  props : String
deriving DecidableEq

/-- `Point` of `src/types.ts` (numeric coordinates; the server never
computes with them, so they are embedded as integers). -/
structure Point where
  x : Int
  y : Int
deriving DecidableEq

/-- `BoardStateType`: the per-room whiteboard document. -/
structure BoardStateType where
  elements : List Element
  scale : Int
  panOffset : Point
deriving DecidableEq

/-- A board document as stored under `whiteboard:<roomId>:data`,
together with its remaining TTL: `some n` after `SET key value EX n`,
`none` after a plain `SET key value` (which clears any TTL). -/
structure StoredBoard where
  doc : BoardStateType
  ttlSeconds : Option Nat
deriving DecidableEq

/-- `UserDetails`: the presence entry stored per `(roomId, userId)`. -/
structure UserDetails where
  userName : String
  color : String
deriving DecidableEq

/-- The shared Redis state plus the process-local `CLIENTS` registry.
`membersMap` is the Redis set `room:<roomId>:members` (a Redis set key
with no members does not exist, so the empty list models an absent
key); `userDetailsMap` is `room:<roomId>:user:<userId>`; `statusMap` is
`user:<userId>:status`; `clients u = some b` means `CLIENTS` holds a
socket for `u` whose `readyState === OPEN` iff `b`. -/
structure ServerState where
  boards : String → Option StoredBoard
  membersMap : String → List String
  userDetailsMap : String → String → Option UserDetails
  statusMap : String → Option String
  clients : String → Option Bool

/-- Point update of a one-key map. -/
def setFun {α : Type} (f : String → Option α) (k : String) (v : Option α) :
    String → Option α :=
  fun k2 => if k2 = k then v else f k2

/-- Point update of a two-key map. -/
def setFun2 {α : Type} (f : String → String → Option α) (k1 k2 : String)
    (v : Option α) : String → String → Option α :=
  fun a b => if a = k1 ∧ b = k2 then v else f a b

/-- Point update of the member-set map. -/
def setMembers (f : String → List String) (k : String) (v : List String) :
    String → List String :=
  fun k2 => if k2 = k then v else f k2

/-- Redis `SADD`: add to the set if not already present. -/
def sadd (l : List String) (x : String) : List String :=
  if x ∈ l then l else l ++ [x]

/-- One observable side effect of a handler, in program order:
a write to a locally connected socket, a publish of the envelope on the
`message-channel` bus, or a `SET` of a room's whiteboard key. -/
inductive Op where
  | localSend (userId msgType : String)
  | busPublish (userId msgType : String)
  | boardWrite (roomId : String)
deriving DecidableEq

/-- The user a delivery `Op` is addressed to (for a board write, the
room key it touches). -/
def opTarget : Op → String
  | Op.localSend u _ => u
  | Op.busPublish u _ => u
  | Op.boardWrite r => r

/-- `Op` is a local-socket or bus delivery. -/
def isDelivery : Op → Bool
  | Op.localSend _ _ => true
  | Op.busPublish _ _ => true
  | Op.boardWrite _ => false

/-- `Op` is a board-state store mutation. -/
def isWrite : Op → Bool
  | Op.boardWrite _ => true
  | _ => false

/-- JS truthiness of the stored `url` field: present and nonempty. -/
def urlTruthy : Option String → Bool
  | some s => s ≠ ""
  | none => false

/-- Body of the matching branch of the `map` in `updateBoardState`
(lines 713-727): for an incoming `image` element, when the stored
element's `url` is truthy the stored url overrides the incoming one
(`{ ...element, url: ele.url }`); otherwise the incoming element
replaces the stored one (`{ ...element }`). -/
def mergedElement (ele element : Element) : Element :=
  if element.type == "image" && urlTruthy ele.url then
    { element with url := ele.url }
  else
    element

/-- The pure element-list transformation of `updateBoardState`: map
over the stored elements replacing the one whose id matches
(`elementExists` is set exactly when some stored id matches), and
push the incoming element onto the mapped list when no id matched. -/
def updateElements (elements : List Element) (element : Element) :
    List Element :=
  if elements.any (fun ele => ele.id == element.id) then
    elements.map fun ele =>
      if ele.id == element.id then mergedElement ele element else ele
  else
    (elements.map fun ele =>
      if ele.id == element.id then mergedElement ele element else ele) ++
      [element]

/-- `updateBoardState` (lines 699-742): read the stored board; if the
room has no board state, warn and return with no write; otherwise
store the document with the updated element list.  The write is a
plain `SET` (no `EX`), so any remaining TTL of the key is cleared. -/
def updateBoardState (st : ServerState) (roomId : String)
    (element : Element) : ServerState × List Op :=
  match st.boards roomId with
  | none => (st, [])
  | some sb =>
      ({ st with
          boards := setFun st.boards roomId
            (some { doc := { sb.doc with
                     elements := updateElements sb.doc.elements element },
                    ttlSeconds := none }) },
       [Op.boardWrite roomId])

/-- The pure filter of `eraseElements` (lines 601-605): keep exactly
the stored elements whose id matches no element of the erase list. -/
def eraseFilter (elements eraseEls : List Element) : List Element :=
  elements.filter fun element =>
    !(eraseEls.any fun eraseElement => eraseElement.id == element.id)

/-- `eraseElements` (lines 585-622): read the stored board; no-op when
the room has no board state; otherwise store the filtered document.
The write is a plain `SET` (no `EX`), clearing any remaining TTL. -/
def eraseElements (st : ServerState) (eraseEls : List Element)
    (roomId : String) : ServerState × List Op :=
  match st.boards roomId with
  | none => (st, [])
  | some sb =>
      ({ st with
          boards := setFun st.boards roomId
            (some { doc := { sb.doc with
                     elements := eraseFilter sb.doc.elements eraseEls },
                    ttlSeconds := none }) },
       [Op.boardWrite roomId])

/-- `initialiseWhiteboard` (lines 423-445): write the initial document
only if none exists, with `EX 86400` (24 h TTL). -/
def initialiseWhiteboard (st : ServerState) (roomId : String)
    (details : BoardStateType) : ServerState :=
  if (st.boards roomId).isSome then st
  else
    { st with
        boards := setFun st.boards roomId
          (some { doc := details, ttlSeconds := some 86400 }) }

/-- `send` (lines 266-302): guard on falsy `userId`/`type`; read the
status key; skip entirely unless the status is `"1"`; then write
locally when an open local socket exists, otherwise publish the
envelope once on `message-channel`. -/
def send (st : ServerState) (userId msgType : String) : List Op :=
  if userId = "" ∨ msgType = "" then []
  else if st.statusMap userId ≠ some "1" then []
  else if st.clients userId = some true then [Op.localSend userId msgType]
  else [Op.busPublish userId msgType]

/-- `roomExists` (lines 744-752): Redis `EXISTS` on the member-set key,
which holds exactly when the set is nonempty. -/
def roomExists (st : ServerState) (roomId : String) : Bool :=
  !(st.membersMap roomId).isEmpty

/-- `broadCastRoom` (lines 478-509): guard on a falsy `roomId`; no-op
when the room does not exist; otherwise `send` to every member of the
room other than the sender, in member-set order. -/
def broadCastRoom (st : ServerState) (userId msgType roomId : String) :
    List Op :=
  if roomId = "" then []
  else if !(roomExists st roomId) then []
  else
    (st.membersMap roomId).flatMap fun memberId =>
      if memberId ≠ userId then send st memberId msgType else []

/-- `joinRoom` (lines 361-407): guard on falsy `userId`, missing
payload, or falsy `payload.roomId`; then store the presence entry and
`SADD` the user into the member set; only afterwards read the board
state — when none exists the handler warns and returns (with presence
and membership already written); otherwise send `room-joined` to the
joiner and broadcast `add-participant` to the room.  `userColor` is the
value of the `randomColor()` call; a falsy `name` defaults to
`"Anonymous"`. -/
def joinRoom (st : ServerState) (userId : String)
    (payload : Option (String × String)) (userColor : String) :
    ServerState × List Op :=
  match payload with
  | none => (st, [])
  | some (roomId, name) =>
      if userId = "" ∨ roomId = "" then (st, [])
      else
        let userDetails : UserDetails :=
          { userName := if name = "" then "Anonymous" else name,
            color := userColor }
        let st1 : ServerState :=
          { st with
              userDetailsMap :=
                setFun2 st.userDetailsMap roomId userId (some userDetails) }
        let st2 : ServerState :=
          { st1 with
              membersMap :=
                setMembers st1.membersMap roomId
                  (sadd (st1.membersMap roomId) userId) }
        match st2.boards roomId with
        | none => (st2, [])
        | some _ =>
            (st2,
             send st2 userId "room-joined" ++
               broadCastRoom st2 userId "add-participant" roomId)

/-- `handleNewElement` (lines 511-537): validate the payload
(`element` present, `roomId` truthy), broadcast `draw-element` to the
room, then update the board state. -/
def handleNewElement (st : ServerState) (userId : String)
    (payload : Option (Element × String)) : ServerState × List Op :=
  match payload with
  | none => (st, [])
  | some (element, roomId) =>
      if roomId = "" then (st, [])
      else
        let bops := broadCastRoom st userId "draw-element" roomId
        let r := updateBoardState st roomId element
        (r.1, bops ++ r.2)

/-- `handleElementMove` (lines 539-560): broadcast `move-element`,
then update the board state. -/
def handleElementMove (st : ServerState) (userId : String)
    (payload : Option (Element × String)) : ServerState × List Op :=
  match payload with
  | none => (st, [])
  | some (element, roomId) =>
      if roomId = "" then (st, [])
      else
        let bops := broadCastRoom st userId "move-element" roomId
        let r := updateBoardState st roomId element
        (r.1, bops ++ r.2)

/-- `handleElementResize` (lines 562-583): broadcast `resize-element`,
then update the board state. -/
def handleElementResize (st : ServerState) (userId : String)
    (payload : Option (Element × String)) : ServerState × List Op :=
  match payload with
  | none => (st, [])
  | some (element, roomId) =>
      if roomId = "" then (st, [])
      else
        let bops := broadCastRoom st userId "resize-element" roomId
        let r := updateBoardState st roomId element
        (r.1, bops ++ r.2)

/-- `handleElementUpdate` (lines 645-667): broadcast `update-element`,
then update the board state. -/
def handleElementUpdate (st : ServerState) (userId : String)
    (payload : Option (Element × String)) : ServerState × List Op :=
  match payload with
  | none => (st, [])
  | some (element, roomId) =>
      if roomId = "" then (st, [])
      else
        let bops := broadCastRoom st userId "update-element" roomId
        let r := updateBoardState st roomId element
        (r.1, bops ++ r.2)

/-- `handleElementErase` (lines 624-643): broadcast `erase-elements`,
then erase from the board state (a present but empty `elements` array
is truthy in JS and passes the guard). -/
def handleElementErase (st : ServerState) (userId : String)
    (payload : Option (List Element × String)) : ServerState × List Op :=
  match payload with
  | none => (st, [])
  | some (els, roomId) =>
      if roomId = "" then (st, [])
      else
        let bops := broadCastRoom st userId "erase-elements" roomId
        let r := eraseElements st els roomId
        (r.1, bops ++ r.2)

/-- `handleImageAdd` (lines 669-697): broadcast `add-images`, then
update the board state once per element of the payload, in order. -/
def handleImageAdd (st : ServerState) (userId : String)
    (payload : Option (List Element × String)) : ServerState × List Op :=
  match payload with
  | none => (st, [])
  | some (els, roomId) =>
      if roomId = "" then (st, [])
      else
        let bops := broadCastRoom st userId "add-images" roomId
        let r := els.foldl
          (fun (acc : ServerState × List Op) element =>
            let r2 := updateBoardState acc.1 roomId element
            (r2.1, acc.2 ++ r2.2))
          (st, [])
        (r.1, bops ++ r.2)

/-!
## The dispatcher

`WebSocketClient` holds a single field `jobQueue : Promise<void>`
(line 26), shared by the message listeners of every connection.  On
each valid inbound message the listener builds
`nextJob = this.jobQueue.then(run the handlers)` and reassigns
`this.jobQueue = nextJob` (lines 98-104); the separate
`nextJob.catch(log)` (lines 106-108) only logs.  Hence:

* the job of every message — from any connection — is chained after
  the completion of all previously dispatched messages of the whole
  server instance, in arrival order; and
* if a handler rejects, `this.jobQueue` itself becomes (and stays) a
  rejected promise, so the `.then` callback of every later message is
  skipped: its handlers never run, the rejection merely being logged
  again by that message's own `.catch`.

`DispatchState` models this: `chain` is the list of dispatched jobs
`(connectionId, messageId)` in chain order, `poisoned` says whether
`jobQueue` is currently a rejected promise, and `executed` lists the
jobs whose handler bodies actually ran.
-/

structure DispatchState where
  chain : List (String × Nat)
  poisoned : Bool
  executed : List (String × Nat)
deriving DecidableEq

/-- The initial `jobQueue = Promise.resolve()`. -/
def initialDispatch : DispatchState :=
  { chain := [], poisoned := false, executed := [] }

/-- Dispatch of one valid inbound message from connection `connId`:
chain its job after the current queue tail; run its handlers only if
the queue is not a rejected promise; `handlerRejects` says whether the
handler work throws/rejects, which leaves the reassigned `jobQueue`
rejected. -/
def onMessage (st : DispatchState) (connId : String) (msgId : Nat)
    (handlerRejects : Bool) : DispatchState :=
  if st.poisoned then
    { chain := st.chain ++ [(connId, msgId)], poisoned := true,
      executed := st.executed }
  else
    { chain := st.chain ++ [(connId, msgId)], poisoned := handlerRejects,
      executed := st.executed ++ [(connId, msgId)] }

/-- Run a whole inbound trace (messages from all connections of the
instance, in arrival order) through the dispatcher. -/
def runDispatch (msgs : List (String × Nat × Bool)) : DispatchState :=
  msgs.foldl (fun st m => onMessage st m.1 m.2.1 m.2.2) initialDispatch

/-!  ## Derived predicates used by the claims  -/

/-- The ids of an element list, in order. -/
def idsOf (l : List Element) : List String := l.map Element.id

/-- Every store mutation in the trace happens before every delivery
(what a "mutation before broadcast" handler would produce). -/
def mutationsPrecedeDeliveries (ops : List Op) : Prop :=
  ∀ i j, (hi : i < ops.length) → (hj : j < ops.length) →
    isWrite (ops.get ⟨i, hi⟩) = true → isDelivery (ops.get ⟨j, hj⟩) = true →
    i < j

/-- Every delivery in the trace happens before every store mutation
(what a "broadcast before mutation" handler produces). -/
def deliveriesPrecedeWrites (ops : List Op) : Prop :=
  ∀ i j, (hi : i < ops.length) → (hj : j < ops.length) →
    isDelivery (ops.get ⟨i, hi⟩) = true → isWrite (ops.get ⟨j, hj⟩) = true →
    i < j

/-- The private-per-connection-queue reading of the dispatcher: a
message's job is only ever chained (directly) behind a job of the same
connection, for every inbound trace of the instance. -/
def perConnectionChaining : Prop :=
  ∀ (msgs : List (String × Nat × Bool)) (i : Nat)
    (h : i + 1 < (runDispatch msgs).chain.length),
    ((runDispatch msgs).chain.get ⟨i, Nat.lt_of_succ_lt h⟩).1 =
      ((runDispatch msgs).chain.get ⟨i + 1, h⟩).1

/-!  ## Concrete fixtures  -/

/-- A fresh server instance: no boards, no members, no presence, no
status keys, no local connections. -/
def stEmpty : ServerState :=
  { boards := fun _ => none, membersMap := fun _ => [],
    userDetailsMap := fun _ _ => none, statusMap := fun _ => none,
    clients := fun _ => none }

def c3ElA : Element := { id := "eA", type := "rectangle", url := none, props := "gA" }

def c3ElB : Element := { id := "eB", type := "line", url := none, props := "gB" }

def c3Board : StoredBoard :=
  { doc := { elements := [c3ElA, c3ElB], scale := 2, panOffset := { x := 3, y := 4 } },
    ttlSeconds := some 100 }

def c3St : ServerState :=
  { stEmpty with boards := fun r => if r = "room3" then some c3Board else none }

def c3New : Element := { id := "eB", type := "line", url := none, props := "gB2" }

def c4Stored : Element :=
  { id := "img1", type := "image", url := some "http://x/1.png", props := "gi" }

def c4Update : Element := { id := "img1", type := "rectangle", url := none, props := "gr" }

def c4ImgUpdate : Element := { id := "img1", type := "image", url := none, props := "gi2" }

/-- The element actually stored after the image-typed, URL-omitting
upsert of `c4ImgUpdate` over `[c4Stored]`. -/
def c4Result : Element :=
  { id := "img1", type := "image", url := some "http://x/1.png", props := "gi2" }

def c5Board : StoredBoard :=
  { doc := { elements := [], scale := 1, panOffset := { x := 0, y := 0 } },
    ttlSeconds := some 50 }

def c5St : ServerState :=
  { boards := fun r => if r = "r5" then some c5Board else none,
    membersMap := fun r => if r = "r5" then ["alice", "bob"] else [],
    userDetailsMap := fun _ _ => none,
    statusMap := fun u => if u = "bob" then some "1" else none,
    clients := fun u => if u = "bob" then some true else none }

def c5El : Element := { id := "e5", type := "rectangle", url := none, props := "g5" }

def c6xSt : ServerState :=
  { stEmpty with membersMap := fun r => if r = "r6" then ["alice", "bob"] else [] }

def c6wSt : ServerState :=
  { stEmpty with
      membersMap := fun r => if r = "r6" then ["alice", "bob"] else [],
      statusMap := fun u => if u = "bob" then some "1" else none }

def c8ElA : Element := { id := "a8", type := "rectangle", url := none, props := "g1" }

def c8ElB : Element := { id := "b8", type := "line", url := none, props := "g2" }

def c8ElC : Element := { id := "c8", type := "text", url := none, props := "g3" }

def c8Board : StoredBoard :=
  { doc := { elements := [c8ElA, c8ElB, c8ElC], scale := 1, panOffset := { x := 0, y := 0 } },
    ttlSeconds := some 100 }

def c8St : ServerState :=
  { stEmpty with boards := fun r => if r = "room8" then some c8Board else none }

def c8Erase : List Element :=
  [{ id := "b8", type := "line", url := none, props := "gX" },
   { id := "zz", type := "line", url := none, props := "gY" }]

def c9Doc : BoardStateType :=
  { elements := [], scale := 1, panOffset := { x := 0, y := 0 } }

def c9Element : Element := { id := "e9", type := "rectangle", url := none, props := "g9" }

def c9St : ServerState := initialiseWhiteboard stEmpty "room9" c9Doc

def c10St : ServerState :=
  { stEmpty with clients := fun u => if u = "alice" then some true else none }

/-!  ## Theorems  -/

/-- The replacement produced for a matching stored element keeps the
incoming element's id. -/
theorem mergedElement_id (ele element : Element) :
    (mergedElement ele element).id = element.id := by
  unfold mergedElement
  split <;> rfl

/-- The `any` test of `updateBoardState` holds exactly when the
incoming id occurs among the stored ids. -/
theorem any_id_iff (elements : List Element) (element : Element) :
    elements.any (fun ele => ele.id == element.id) = true ↔
      element.id ∈ idsOf elements := by
  simp [idsOf, List.any_eq_true, List.mem_map]

/-- The `map` of `updateBoardState` preserves the sequence of ids. -/
theorem idsOf_update_map (elements : List Element) (element : Element) :
    idsOf (elements.map fun ele =>
      if ele.id == element.id then mergedElement ele element else ele) =
      idsOf elements := by
  unfold idsOf
  rw [List.map_map]
  apply List.map_congr_left
  intro a _
  simp only [Function.comp_apply]
  split
  · rename_i h
    rw [mergedElement_id]
    exact (beq_iff_eq.mp h).symm
  · rfl

/-- When no stored id matches, the `map` of `updateBoardState` keeps
the element list unchanged. -/
theorem map_keep_of_not_mem (elements : List Element) (element : Element)
    (h : element.id ∉ idsOf elements) :
    (elements.map fun ele =>
      if ele.id == element.id then mergedElement ele element else ele) =
      elements := by
  induction elements with
  | nil => rfl
  | cons a l ih =>
      simp only [idsOf, List.map_cons, List.mem_cons] at h
      push_neg at h
      have hne : (a.id == element.id) = false :=
        beq_eq_false_iff_ne.mpr fun hh => h.1 hh.symm
      simp only [List.map_cons, hne, Bool.false_eq_true, if_false]
      rw [ih (by simpa [idsOf] using h.2)]

/-- `updateElements` on a present id is the in-place map. -/
theorem updateElements_of_mem (elements : List Element) (element : Element)
    (h : element.id ∈ idsOf elements) :
    updateElements elements element =
      elements.map fun ele =>
        if ele.id == element.id then mergedElement ele element else ele := by
  unfold updateElements
  rw [if_pos ((any_id_iff elements element).mpr h)]

/-- `updateElements` on an absent id appends the element at the end. -/
theorem updateElements_of_not_mem (elements : List Element)
    (element : Element) (h : element.id ∉ idsOf elements) :
    updateElements elements element = elements ++ [element] := by
  unfold updateElements
  rw [if_neg (fun hc => h ((any_id_iff elements element).mp hc))]
  rw [map_keep_of_not_mem elements element h]

/-- Filtering an element list by an id counts that id's occurrences. -/
theorem length_filter_id_count (l : List Element) (x : String) :
    (l.filter fun e => e.id == x).length = (idsOf l).count x := by
  induction l with
  | nil => simp [idsOf]
  | cons a l ih =>
      by_cases h : a.id = x
      · simp [idsOf, List.filter_cons, List.count_cons, h, ih]
      · simp [idsOf, List.filter_cons, List.count_cons, h, ih]

/-- The `map` of `updateBoardState` leaves the sublist of
non-matching elements untouched. -/
theorem filter_not_match_map (elements : List Element) (element : Element) :
    ((elements.map fun ele =>
        if ele.id == element.id then mergedElement ele element else ele).filter
      fun e => !(e.id == element.id)) =
      elements.filter fun e => !(e.id == element.id) := by
  induction elements with
  | nil => rfl
  | cons a l ih =>
      simp only [List.map_cons]
      set X := l.map fun ele =>
        if ele.id == element.id then mergedElement ele element else ele with hX
      by_cases h : (a.id == element.id) = true
      · have hm : ((mergedElement a element).id == element.id) = true := by
          rw [mergedElement_id]
          exact beq_self_eq_true element.id
        simp [h, hm, ih]
      · simp only [Bool.not_eq_true] at h
        simp [h, ih]

/-- Auxiliary: chain of the dispatcher fold over any initial state. -/
theorem runDispatch_chain_aux (msgs : List (String × Nat × Bool))
    (st : DispatchState) :
    (msgs.foldl (fun st m => onMessage st m.1 m.2.1 m.2.2) st).chain =
      st.chain ++ msgs.map fun m => (m.1, m.2.1) := by
  induction msgs generalizing st with
  | nil => simp
  | cons m ms ih =>
      rw [List.foldl_cons, ih]
      unfold onMessage
      split <;> simp

/-- C2 (counterexample): the dispatcher does NOT give every connection
its own private queue: in the trace where connection `"A"` sends a
message and then connection `"B"` sends one, `"B"`'s job is chained
directly behind `"A"`'s job, so handlers for two different connections
are chained behind one another. -/
theorem claim_c2_counterexample : ¬ perConnectionChaining := by
  intro h
  exact absurd (h [("A", 0, false), ("B", 1, false)] 0 (by decide)) (by decide)

/-- C2 (amended): `jobQueue` is a single field of the server instance
shared by the message listeners of all connections, so there is one
global queue: for every inbound trace, the jobs of all messages — from
all connections — are chained in global arrival order, each behind the
completion of every earlier message from any connection. -/
theorem claim_c2_global_queue (msgs : List (String × Nat × Bool)) :
    (runDispatch msgs).chain = msgs.map fun m => (m.1, m.2.1) := by
  have h := runDispatch_chain_aux msgs initialDispatch
  simpa [runDispatch, initialDispatch] using h

/-- C7 (code bug): a handler rejection leaves `this.jobQueue` a
rejected promise, so the handler of the next message never runs: in
the trace where message `("A", 0)`'s handler rejects and message
`("A", 1)` follows, `("A", 1)` is chained into the queue but its
handler is never executed — the queue does not keep executing handlers
for subsequent messages. -/
theorem claim_c7_queue_poisoned :
    (runDispatch [("A", 0, true), ("A", 1, false)]).executed = [("A", 0)] ∧
    ("A", 1) ∈ (runDispatch [("A", 0, true), ("A", 1, false)]).chain ∧
    ("A", 1) ∉ (runDispatch [("A", 0, true), ("A", 1, false)]).executed := by
  decide

/-- C9 (code bug): `initialiseWhiteboard` stores the document with a
24 h TTL, but both `updateBoardState` and `eraseElements` rewrite the
key with a plain `SET` (no `EX`), which clears the remaining TTL: after
the first mutation the document persists with no bounded lifetime. -/
theorem claim_c9_ttl_cleared :
    c9St.boards "room9" = some { doc := c9Doc, ttlSeconds := some 86400 } ∧
    (updateBoardState c9St "room9" c9Element).1.boards "room9" =
      some { doc := { c9Doc with elements := [c9Element] }, ttlSeconds := none } ∧
    (eraseElements c9St [] "room9").1.boards "room9" =
      some { doc := c9Doc, ttlSeconds := none } := by
  decide

/-- C10: `send` delivers nothing at all — neither a local socket write
nor a bus publish — unless the user's status key is exactly `"1"`; and
when it is `"1"` (and the guard on falsy arguments passes), it writes
locally exactly when an open local socket exists and otherwise
publishes on the bus. -/
theorem claim_c10_status_gate (st : ServerState) (u ty : String) :
    (st.statusMap u ≠ some "1" → send st u ty = []) ∧
    (∀ op ∈ send st u ty,
      st.statusMap u = some "1" ∧
        (op = Op.localSend u ty ∨ op = Op.busPublish u ty)) ∧
    (st.statusMap u = some "1" → u ≠ "" → ty ≠ "" →
      send st u ty =
        if st.clients u = some true then [Op.localSend u ty]
        else [Op.busPublish u ty]) := by
  refine ⟨?_, ?_, ?_⟩
  · intro h
    simp [send, h]
  · intro op hop
    unfold send at hop
    split at hop
    · simp at hop
    · split at hop
      · simp at hop
      · rename_i h1 h2
        refine ⟨not_not.mp h2, ?_⟩
        split at hop <;> simp at hop <;> simp [hop]
  · intro h1 h2 h3
    unfold send
    rw [if_neg (by push_neg; exact ⟨h2, h3⟩), if_neg (by simp [h1])]

/-- C10 (witness): with no status key set, `send` does nothing even
though an open local socket for the user exists. -/
theorem claim_c10_status_gate_witness :
    c10St.clients "alice" = some true ∧ c10St.statusMap "alice" = none ∧
    send c10St "alice" "draw-element" = [] :=
  ⟨rfl, rfl, (claim_c10_status_gate c10St "alice" "draw-element").1 (by decide)⟩

/-- C1 (counterexample): joining a room whose board state does not
exist is NOT a no-op on shared state: on a fresh instance, a
`join-room` for the nonexistent room `"room1"` stores the presence
entry and adds the user to the member set (only the `room-joined`
reply and the broadcast are skipped), resurrecting the room as a
membership object. -/
theorem claim_c1_counterexample :
    stEmpty.boards "room1" = none ∧
    (joinRoom stEmpty "alice" (some ("room1", "Alice")) "teal").1.userDetailsMap
        "room1" "alice" = some { userName := "Alice", color := "teal" } ∧
    "alice" ∈ (joinRoom stEmpty "alice" (some ("room1", "Alice")) "teal").1.membersMap
        "room1" ∧
    (joinRoom stEmpty "alice" (some ("room1", "Alice")) "teal").2 = [] := by
  decide

/-- C4 (counterexample): the sticky-URL branch fires only when the
INCOMING element's type is `"image"`: an upsert for the same id whose
incoming element has another type and omits the URL replaces the
stored image wholesale, erasing the URL. -/
theorem claim_c4_counterexample :
    c4Stored.url = some "http://x/1.png" ∧ c4Update.id = c4Stored.id ∧
    c4Update.url = none ∧
    updateElements [c4Stored] c4Update = [c4Update] := by
  decide

/-- C5 (counterexample): a successful `drawing-element` handler run
issues its broadcast delivery BEFORE the store mutation: the op trace
is `[localSend "bob" "draw-element", boardWrite "r5"]`, so the
mutation does not precede the broadcast. -/
theorem claim_c5_counterexample :
    (handleNewElement c5St "alice" (some (c5El, "r5"))).2 =
      [Op.localSend "bob" "draw-element", Op.boardWrite "r5"] ∧
    ¬ mutationsPrecedeDeliveries
        (handleNewElement c5St "alice" (some (c5El, "r5"))).2 := by
  refine ⟨by decide, ?_⟩
  intro h
  exact absurd (h 1 0 (by decide) (by decide) (by decide) (by decide)) (by decide)

/-- C3: for a room with existing board state whose element list has
pairwise distinct ids, an upsert stores (with a plain `SET`) the
document whose element list is `updateElements`; that list contains
exactly one element with the incoming id, its ids stay pairwise
distinct, the id sequence is unchanged when the id already existed
(replacement in place) and gains the id at the end otherwise (the
element itself is appended), and the sublist of elements with other
ids is untouched. -/
theorem claim_c3_upsert_unique (st : ServerState) (roomId : String)
    (element : Element) (sb : StoredBoard) (hb : st.boards roomId = some sb)
    (hnd : (idsOf sb.doc.elements).Nodup) :
    (updateBoardState st roomId element).1.boards roomId =
      some { doc := { sb.doc with
               elements := updateElements sb.doc.elements element },
             ttlSeconds := none } ∧
    ((updateElements sb.doc.elements element).filter
      fun e => e.id == element.id).length = 1 ∧
    (idsOf (updateElements sb.doc.elements element)).Nodup ∧
    idsOf (updateElements sb.doc.elements element) =
      (if element.id ∈ idsOf sb.doc.elements then idsOf sb.doc.elements
       else idsOf sb.doc.elements ++ [element.id]) ∧
    (element.id ∉ idsOf sb.doc.elements →
      updateElements sb.doc.elements element = sb.doc.elements ++ [element]) ∧
    ((updateElements sb.doc.elements element).filter
      fun e => !(e.id == element.id)) =
      sb.doc.elements.filter fun e => !(e.id == element.id) := by
  have hstore : (updateBoardState st roomId element).1.boards roomId =
      some { doc := { sb.doc with
               elements := updateElements sb.doc.elements element },
             ttlSeconds := none } := by
    simp only [updateBoardState, hb]
    simp [setFun]
  refine ⟨hstore, ?_, ?_, ?_, ?_, ?_⟩ <;>
    by_cases hmem : element.id ∈ idsOf sb.doc.elements
  · rw [updateElements_of_mem _ _ hmem, length_filter_id_count,
      idsOf_update_map]
    exact List.count_eq_one_of_mem hnd hmem
  · rw [updateElements_of_not_mem _ _ hmem, List.filter_append,
      List.length_append, length_filter_id_count,
      List.count_eq_zero_of_not_mem hmem]
    simp
  · rw [updateElements_of_mem _ _ hmem, idsOf_update_map]
    exact hnd
  · rw [updateElements_of_not_mem _ _ hmem]
    have hnd2 : (sb.doc.elements.map Element.id).Nodup := by
      simpa [idsOf] using hnd
    simp only [idsOf, List.map_append, List.map_cons, List.map_nil]
    refine List.Nodup.append hnd2 (List.nodup_singleton _) ?_
    intro a ha hsing
    rw [List.mem_singleton] at hsing
    subst hsing
    exact hmem (by simpa [idsOf] using ha)
  · rw [updateElements_of_mem _ _ hmem, idsOf_update_map, if_pos hmem]
  · rw [updateElements_of_not_mem _ _ hmem, if_neg hmem]
    simp [idsOf]
  · exact fun h => absurd hmem h
  · exact fun _ => updateElements_of_not_mem _ _ hmem
  · rw [updateElements_of_mem _ _ hmem]
    exact filter_not_match_map _ _
  · rw [updateElements_of_not_mem _ _ hmem, List.filter_append]
    simp

/-- C3 (witness): upserting an element with the already-present id
`"eB"` into the two-element board of room `"room3"`. -/
theorem claim_c3_upsert_unique_witness :
    (updateBoardState c3St "room3" c3New).1.boards "room3" =
      some { doc := { c3Board.doc with
               elements := updateElements c3Board.doc.elements c3New },
             ttlSeconds := none } ∧
    ((updateElements c3Board.doc.elements c3New).filter
      fun e => e.id == c3New.id).length = 1 ∧
    (idsOf (updateElements c3Board.doc.elements c3New)).Nodup ∧
    idsOf (updateElements c3Board.doc.elements c3New) =
      (if c3New.id ∈ idsOf c3Board.doc.elements then idsOf c3Board.doc.elements
       else idsOf c3Board.doc.elements ++ [c3New.id]) ∧
    (c3New.id ∉ idsOf c3Board.doc.elements →
      updateElements c3Board.doc.elements c3New =
        c3Board.doc.elements ++ [c3New]) ∧
    ((updateElements c3Board.doc.elements c3New).filter
      fun e => !(e.id == c3New.id)) =
      c3Board.doc.elements.filter fun e => !(e.id == c3New.id) :=
  claim_c3_upsert_unique c3St "room3" c3New c3Board (by decide) (by decide)

/-- C4 (amended): for an image element that carries a nonempty URL in
the stored board state, an upsert for the same id whose incoming
element also has type `"image"` and omits the URL leaves the stored
URL in place: every element of the updated list with that id carries
the old URL. -/
theorem claim_c4_sticky_url (elements : List Element)
    (element stored : Element) (u : String)
    (hnd : (idsOf elements).Nodup) (hmem : stored ∈ elements)
    (hid : stored.id = element.id) (hurl : stored.url = some u) (hu : u ≠ "")
    (hty : element.type = "image") (homit : element.url = none) :
    ∀ e ∈ updateElements elements element, e.id = element.id →
      e.url = some u := by
  have hidmem : element.id ∈ idsOf elements := by
    simp only [idsOf, List.mem_map]
    exact ⟨stored, hmem, hid⟩
  rw [updateElements_of_mem elements element hidmem]
  intro e he hei
  rcases List.mem_map.mp he with ⟨ele, hele, hfe⟩
  by_cases h : (ele.id == element.id) = true
  · rw [if_pos h] at hfe
    have hele_eq : ele = stored := by
      refine List.inj_on_of_nodup_map (f := Element.id)
        (by simpa [idsOf] using hnd) hele hmem ?_
      rw [beq_iff_eq.mp h, hid]
    have hurl2 : ele.url = some u := by rw [hele_eq]; exact hurl
    have hcond : (element.type == "image" && urlTruthy ele.url) = true := by
      simp [hty, hurl2, urlTruthy, hu]
    unfold mergedElement at hfe
    rw [if_pos hcond] at hfe
    rw [← hfe]
    simpa using hurl2
  · rw [if_neg h] at hfe
    rw [← hfe] at hei
    exact absurd (beq_iff_eq.mpr hei) h

/-- C4 (witness for the amended claim): an `image`-typed update for
`"img1"` that omits the URL keeps the stored `http://x/1.png`. -/
theorem claim_c4_sticky_url_witness :
    c4Result ∈ updateElements [c4Stored] c4ImgUpdate ∧
    c4Result.url = some "http://x/1.png" :=
  ⟨by decide,
   claim_c4_sticky_url [c4Stored] c4ImgUpdate c4Stored "http://x/1.png"
     (by decide) (by decide) (by decide) (by decide) (by decide) (by decide)
     (by decide) c4Result (by decide) (by decide)⟩

/-- C8: for a room with existing board state, an erase request stores
(with a plain `SET`) the document whose element list is `eraseFilter`;
every element whose id matches an id of the request is absent from it,
the surviving elements form a sublist of the original (relative order
kept), every stored element matching no requested id survives
unchanged, and a request whose ids match nothing leaves the element
list identical (no error). -/
theorem claim_c8_erase (st : ServerState) (roomId : String)
    (eraseEls : List Element) (sb : StoredBoard)
    (hb : st.boards roomId = some sb) :
    (eraseElements st eraseEls roomId).1.boards roomId =
      some { doc := { sb.doc with
               elements := eraseFilter sb.doc.elements eraseEls },
             ttlSeconds := none } ∧
    (∀ e ∈ eraseFilter sb.doc.elements eraseEls, ∀ er ∈ eraseEls,
      er.id ≠ e.id) ∧
    List.Sublist (eraseFilter sb.doc.elements eraseEls) sb.doc.elements ∧
    (∀ e ∈ sb.doc.elements, (∀ er ∈ eraseEls, er.id ≠ e.id) →
      e ∈ eraseFilter sb.doc.elements eraseEls) ∧
    ((∀ er ∈ eraseEls, ∀ e ∈ sb.doc.elements, er.id ≠ e.id) →
      eraseFilter sb.doc.elements eraseEls = sb.doc.elements) := by
  refine ⟨?_, ?_, ?_, ?_, ?_⟩
  · simp only [eraseElements, hb]
    simp [setFun]
  · intro e he er her
    rw [eraseFilter, List.mem_filter] at he
    have h2 := he.2
    simp only [Bool.not_eq_eq_eq_not, Bool.not_true, List.any_eq_false,
      beq_iff_eq] at h2
    exact h2 er her
  · exact List.filter_sublist _
  · intro e he h
    rw [eraseFilter, List.mem_filter]
    refine ⟨he, ?_⟩
    simp only [Bool.not_eq_eq_eq_not, Bool.not_true, List.any_eq_false,
      beq_iff_eq]
    exact h
  · intro h
    rw [eraseFilter, List.filter_eq_self]
    intro e he
    simp only [Bool.not_eq_eq_eq_not, Bool.not_true, List.any_eq_false,
      beq_iff_eq]
    exact fun er her => h er her e he

/-- C8 (witness): erasing `{b8, zz}` from the board `[a8, b8, c8]` of
room `"room8"` (`zz` matches nothing). -/
theorem claim_c8_erase_witness :
    (eraseElements c8St c8Erase "room8").1.boards "room8" =
      some { doc := { c8Board.doc with
               elements := eraseFilter c8Board.doc.elements c8Erase },
             ttlSeconds := none } ∧
    (∀ e ∈ eraseFilter c8Board.doc.elements c8Erase, ∀ er ∈ c8Erase,
      er.id ≠ e.id) ∧
    List.Sublist (eraseFilter c8Board.doc.elements c8Erase)
      c8Board.doc.elements ∧
    (∀ e ∈ c8Board.doc.elements, (∀ er ∈ c8Erase, er.id ≠ e.id) →
      e ∈ eraseFilter c8Board.doc.elements c8Erase) ∧
    ((∀ er ∈ c8Erase, ∀ e ∈ c8Board.doc.elements, er.id ≠ e.id) →
      eraseFilter c8Board.doc.elements c8Erase = c8Board.doc.elements) :=
  claim_c8_erase c8St "room8" c8Erase c8Board (by decide)

/-- A write op is not a delivery op. -/
theorem write_not_delivery (op : Op) (h : isWrite op = true) :
    isDelivery op = false := by
  cases op <;> simp [isWrite, isDelivery] at h ⊢

/-- Every op emitted by `send` is a delivery. -/
theorem send_all_delivery (st : ServerState) (u ty : String) :
    ∀ op ∈ send st u ty, isDelivery op = true := by
  intro op hop
  unfold send at hop
  split at hop
  · simp at hop
  · split at hop
    · simp at hop
    · split at hop <;>
        (rw [List.mem_singleton] at hop; subst hop; rfl)

/-- Every op emitted by `broadCastRoom` is a delivery. -/
theorem broadCastRoom_all_delivery (st : ServerState) (u ty r : String) :
    ∀ op ∈ broadCastRoom st u ty r, isDelivery op = true := by
  intro op hop
  unfold broadCastRoom at hop
  split at hop
  · simp at hop
  · split at hop
    · simp at hop
    · rcases List.mem_flatMap.mp hop with ⟨m, _, hop2⟩
      split at hop2
      · exact send_all_delivery st m ty op hop2
      · simp at hop2

/-- Every op emitted by `updateBoardState` is a board write. -/
theorem updateBoardState_all_write (st : ServerState) (r : String)
    (e : Element) : ∀ op ∈ (updateBoardState st r e).2, isWrite op = true := by
  intro op hop
  cases hb : st.boards r with
  | none => simp [updateBoardState, hb] at hop
  | some sb =>
      simp only [updateBoardState, hb, List.mem_singleton] at hop
      subst hop
      rfl

/-- Every op emitted by `eraseElements` is a board write. -/
theorem eraseElements_all_write (st : ServerState) (els : List Element)
    (r : String) : ∀ op ∈ (eraseElements st els r).2, isWrite op = true := by
  intro op hop
  cases hb : st.boards r with
  | none => simp [eraseElements, hb] at hop
  | some sb =>
      simp only [eraseElements, hb, List.mem_singleton] at hop
      subst hop
      rfl

/-- Every op emitted by the image fold of `handleImageAdd` is a board
write, given the accumulator holds only board writes. -/
theorem imageFold_all_write (els : List Element) (r : String) :
    ∀ (st : ServerState) (acc : List Op),
      (∀ op ∈ acc, isWrite op = true) →
      ∀ op ∈ (els.foldl
        (fun (a : ServerState × List Op) element =>
          ((updateBoardState a.1 r element).1,
           a.2 ++ (updateBoardState a.1 r element).2))
        (st, acc)).2, isWrite op = true := by
  induction els with
  | nil => intro st acc hacc op hop; exact hacc op hop
  | cons e els ih =>
      intro st acc hacc op hop
      rw [List.foldl_cons] at hop
      refine ih _ _ ?_ op hop
      intro op2 hop2
      rcases List.mem_append.mp hop2 with h | h
      · exact hacc op2 h
      · exact updateBoardState_all_write _ _ _ op2 h

/-- A trace made of deliveries followed by writes puts every delivery
before every write. -/
theorem deliveries_then_writes (as bs : List Op)
    (ha : ∀ op ∈ as, isDelivery op = true)
    (hb : ∀ op ∈ bs, isWrite op = true) :
    deliveriesPrecedeWrites (as ++ bs) := by
  intro i j hi hj hdel hwr
  have hias : i < as.length := by
    by_contra hc
    push_neg at hc
    have hibs : i - as.length < bs.length := by
      have h2 := hi
      rw [List.length_append] at h2
      omega
    have hop : (as ++ bs).get ⟨i, hi⟩ ∈ bs := by
      rw [@List.get_append_right Op i as bs hc hi hibs]
      exact List.get_mem bs _ _
    have hfalse := write_not_delivery _ (hb _ hop)
    rw [hdel] at hfalse
    exact absurd hfalse (by decide)
  have hjas : as.length ≤ j := by
    by_contra hc
    push_neg at hc
    have hop : (as ++ bs).get ⟨j, hj⟩ ∈ as := by
      rw [List.get_append j hc]
      exact List.get_mem as _ _
    have hfalse := write_not_delivery _ hwr
    rw [ha _ hop] at hfalse
    exact absurd hfalse (by decide)
  omega

/-- The empty trace trivially puts deliveries before writes. -/
theorem deliveriesPrecedeWrites_nil : deliveriesPrecedeWrites [] := by
  intro i j hi
  simp at hi

/-- C5 (amended): every drawing-type handler (`drawing-element`,
`element-moves`, `element-resize`, `element-update`, `elements-erase`,
`images-added`) issues its broadcast BEFORE performing its store
mutation: in each handler's op trace every delivery precedes every
board write, for every payload and state. -/
theorem claim_c5_broadcast_before_mutation (st : ServerState)
    (userId : String) (p : Option (Element × String))
    (q : Option (List Element × String)) :
    deliveriesPrecedeWrites (handleNewElement st userId p).2 ∧
    deliveriesPrecedeWrites (handleElementMove st userId p).2 ∧
    deliveriesPrecedeWrites (handleElementResize st userId p).2 ∧
    deliveriesPrecedeWrites (handleElementUpdate st userId p).2 ∧
    deliveriesPrecedeWrites (handleElementErase st userId q).2 ∧
    deliveriesPrecedeWrites (handleImageAdd st userId q).2 := by
  refine ⟨?_, ?_, ?_, ?_, ?_, ?_⟩
  · cases p with
    | none => exact deliveriesPrecedeWrites_nil
    | some pr =>
        obtain ⟨element, roomId⟩ := pr
        by_cases hr : roomId = ""
        · simp only [handleNewElement]
          rw [if_pos hr]
          exact deliveriesPrecedeWrites_nil
        · simp only [handleNewElement]
          rw [if_neg hr]
          exact deliveries_then_writes _ _
            (broadCastRoom_all_delivery st userId "draw-element" roomId)
            (updateBoardState_all_write st roomId element)
  · cases p with
    | none => exact deliveriesPrecedeWrites_nil
    | some pr =>
        obtain ⟨element, roomId⟩ := pr
        by_cases hr : roomId = ""
        · simp only [handleElementMove]
          rw [if_pos hr]
          exact deliveriesPrecedeWrites_nil
        · simp only [handleElementMove]
          rw [if_neg hr]
          exact deliveries_then_writes _ _
            (broadCastRoom_all_delivery st userId "move-element" roomId)
            (updateBoardState_all_write st roomId element)
  · cases p with
    | none => exact deliveriesPrecedeWrites_nil
    | some pr =>
        obtain ⟨element, roomId⟩ := pr
        by_cases hr : roomId = ""
        · simp only [handleElementResize]
          rw [if_pos hr]
          exact deliveriesPrecedeWrites_nil
        · simp only [handleElementResize]
          rw [if_neg hr]
          exact deliveries_then_writes _ _
            (broadCastRoom_all_delivery st userId "resize-element" roomId)
            (updateBoardState_all_write st roomId element)
  · cases p with
    | none => exact deliveriesPrecedeWrites_nil
    | some pr =>
        obtain ⟨element, roomId⟩ := pr
        by_cases hr : roomId = ""
        · simp only [handleElementUpdate]
          rw [if_pos hr]
          exact deliveriesPrecedeWrites_nil
        · simp only [handleElementUpdate]
          rw [if_neg hr]
          exact deliveries_then_writes _ _
            (broadCastRoom_all_delivery st userId "update-element" roomId)
            (updateBoardState_all_write st roomId element)
  · cases q with
    | none => exact deliveriesPrecedeWrites_nil
    | some pr =>
        obtain ⟨els, roomId⟩ := pr
        by_cases hr : roomId = ""
        · simp only [handleElementErase]
          rw [if_pos hr]
          exact deliveriesPrecedeWrites_nil
        · simp only [handleElementErase]
          rw [if_neg hr]
          exact deliveries_then_writes _ _
            (broadCastRoom_all_delivery st userId "erase-elements" roomId)
            (eraseElements_all_write st els roomId)
  · cases q with
    | none => exact deliveriesPrecedeWrites_nil
    | some pr =>
        obtain ⟨els, roomId⟩ := pr
        by_cases hr : roomId = ""
        · simp only [handleImageAdd]
          rw [if_pos hr]
          exact deliveriesPrecedeWrites_nil
        · simp only [handleImageAdd]
          rw [if_neg hr]
          exact deliveries_then_writes _ _
            (broadCastRoom_all_delivery st userId "add-images" roomId)
            (imageFold_all_write els roomId st []
              (fun op h => absurd h (List.not_mem_nil op)))

/-- C5 (witness for the amended claim): the successful
`drawing-element` run of the counterexample fixture. -/
theorem claim_c5_broadcast_before_mutation_witness :
    deliveriesPrecedeWrites (handleNewElement c5St "alice" (some (c5El, "r5"))).2 :=
  (claim_c5_broadcast_before_mutation c5St "alice" (some (c5El, "r5")) none).1

/-- Every op emitted by `send` is addressed to the given user. -/
theorem send_target (st : ServerState) (u ty : String) :
    ∀ op ∈ send st u ty, opTarget op = u := by
  intro op hop
  unfold send at hop
  split at hop
  · simp at hop
  · split at hop
    · simp at hop
    · split at hop <;>
        (rw [List.mem_singleton] at hop; subst hop; rfl)

/-- With status `"1"` and a nonempty user and type, `send` emits
exactly one local write when an open local socket exists and exactly
one bus publish otherwise. -/
theorem send_count_one (st : ServerState) (m ty : String) (hm : m ≠ "")
    (hty : ty ≠ "") (hs : st.statusMap m = some "1") :
    (st.clients m = some true →
      (send st m ty).count (Op.localSend m ty) = 1) ∧
    (st.clients m ≠ some true →
      (send st m ty).count (Op.busPublish m ty) = 1) := by
  unfold send
  rw [if_neg (by push_neg; exact ⟨hm, hty⟩), if_neg (by simp [hs])]
  constructor
  · intro hc
    rw [if_pos hc]
    simp
  · intro hc
    rw [if_neg hc]
    simp

/-- The broadcast contribution of a member other than the target `m`
contains no op addressed to `m`. -/
theorem send_count_zero_of_ne (st : ServerState) (x sender ty : String)
    (o : Op) (hx : opTarget o ≠ x) :
    ((if x ≠ sender then send st x ty else []).count o) = 0 := by
  split
  · rw [List.count_eq_zero]
    intro hmem
    exact hx (send_target st x ty o hmem)
  · simp

/-- A flat-mapped op list counts zero when every piece counts zero. -/
theorem count_flatMap_zero (l : List String) (f : String → List Op) (o : Op)
    (h : ∀ x ∈ l, (f x).count o = 0) : (l.flatMap f).count o = 0 := by
  induction l with
  | nil => simp
  | cons a l ih =>
      rw [List.flatMap_cons, List.count_append, h a (List.mem_cons_self a l),
        ih fun x hx => h x (List.mem_cons_of_mem a hx)]

/-- A flat map over a duplicate-free list counts like its unique
contributing piece. -/
theorem count_flatMap_eq_of_mem (l : List String) (f : String → List Op)
    (o : Op) (m : String) (hnd : l.Nodup) (hm : m ∈ l)
    (h0 : ∀ x ∈ l, x ≠ m → (f x).count o = 0) :
    (l.flatMap f).count o = (f m).count o := by
  induction l with
  | nil => simp at hm
  | cons a l ih =>
      have ha : a ∉ l := (List.nodup_cons.mp hnd).1
      rw [List.flatMap_cons, List.count_append]
      rcases List.mem_cons.mp hm with h | h
      · subst h
        have hz : (l.flatMap f).count o = 0 :=
          count_flatMap_zero l f o fun x hx =>
            h0 x (List.mem_cons_of_mem _ hx) (by
              intro hxm
              rw [hxm] at hx
              exact ha hx)
        rw [hz]
        omega
      · have haz : (f a).count o = 0 :=
          h0 a (List.mem_cons_self a l) (by
            intro ham
            rw [ham] at ha
            exact ha h)
        rw [haz,
          ih (List.nodup_cons.mp hnd).2 h
            fun x hx hxm => h0 x (List.mem_cons_of_mem _ hx) hxm]
        omega

/-- C6 (amended): a broadcast never delivers to the sender and is a
silent no-op on a memberless room; and for every member other than the
sender whose status key equals `"1"` (the gate C10 establishes), the
broadcast delivers exactly once: locally when an open local socket
exists, and by publishing the envelope exactly once on the bus
otherwise (in particular when the local registry has no entry). -/
theorem claim_c6_broadcast (st : ServerState) (sender ty roomId m : String)
    (hnd : (st.membersMap roomId).Nodup) :
    (∀ op ∈ broadCastRoom st sender ty roomId, opTarget op ≠ sender) ∧
    (st.membersMap roomId = [] → broadCastRoom st sender ty roomId = []) ∧
    (m ∈ st.membersMap roomId → m ≠ sender → m ≠ "" → ty ≠ "" →
      roomId ≠ "" → st.statusMap m = some "1" →
      ((st.clients m = some true →
          (broadCastRoom st sender ty roomId).count (Op.localSend m ty) = 1) ∧
       (st.clients m ≠ some true →
          (broadCastRoom st sender ty roomId).count (Op.busPublish m ty) = 1))) := by
  refine ⟨?_, ?_, ?_⟩
  · intro op hop
    unfold broadCastRoom at hop
    split at hop
    · simp at hop
    · split at hop
      · simp at hop
      · rcases List.mem_flatMap.mp hop with ⟨x, _, hop2⟩
        split at hop2
        · rename_i hxs
          rw [send_target st x ty op hop2]
          exact hxs
        · simp at hop2
  · intro h
    unfold broadCastRoom
    split
    · rfl
    · rw [if_pos (by simp [roomExists, h])]
  · intro hmem hms hm hty hr hs
    have hnonnil : st.membersMap roomId ≠ [] := List.ne_nil_of_mem hmem
    unfold broadCastRoom
    rw [if_neg hr, if_neg (by simp [roomExists, List.isEmpty_iff, hnonnil])]
    constructor
    · intro hc
      rw [count_flatMap_eq_of_mem _ _ (Op.localSend m ty) m hnd hmem
        (fun x hx hxm =>
          send_count_zero_of_ne st x sender ty (Op.localSend m ty)
            (by intro h2; exact hxm h2.symm))]
      show ((if m ≠ sender then send st m ty else []).count _) = 1
      rw [if_pos hms]
      exact (send_count_one st m ty hm hty hs).1 hc
    · intro hc
      rw [count_flatMap_eq_of_mem _ _ (Op.busPublish m ty) m hnd hmem
        (fun x hx hxm =>
          send_count_zero_of_ne st x sender ty (Op.busPublish m ty)
            (by intro h2; exact hxm h2.symm))]
      show ((if m ≠ sender then send st m ty else []).count _) = 1
      rw [if_pos hms]
      exact (send_count_one st m ty hm hty hs).2 hc

/-- C6 (witness for the amended claim): room `"r6"` of `c6wSt` has the
remote member `"bob"` (status `"1"`, no local socket); a broadcast from
`"alice"` publishes the envelope exactly once on the bus for him. -/
theorem claim_c6_broadcast_witness :
    (broadCastRoom c6wSt "alice" "add-participant" "r6").count
      (Op.busPublish "bob" "add-participant") = 1 :=
  ((claim_c6_broadcast c6wSt "alice" "add-participant" "r6" "bob"
      (by decide)).2.2 (by decide) (by decide) (by decide) (by decide)
      (by decide) (by decide)).2 (by decide)

/-- C1 (amended): a `join-room` for a room whose board state does not
exist stores the presence entry and adds the user to the member set —
the board-state check happens only after both writes — and then
returns without sending `room-joined` or broadcasting
`add-participant`; the board state itself stays nonexistent. -/
theorem claim_c1_join_writes_despite_missing_board (st : ServerState)
    (userId roomId name userColor : String) (hu : userId ≠ "")
    (hr : roomId ≠ "") (hb : st.boards roomId = none) :
    (joinRoom st userId (some (roomId, name)) userColor).1.userDetailsMap
        roomId userId =
      some { userName := if name = "" then "Anonymous" else name,
             color := userColor } ∧
    userId ∈ (joinRoom st userId (some (roomId, name)) userColor).1.membersMap
        roomId ∧
    (joinRoom st userId (some (roomId, name)) userColor).1.boards roomId =
      none ∧
    (joinRoom st userId (some (roomId, name)) userColor).2 = [] := by
  have hcond : ¬ (userId = "" ∨ roomId = "") := by push_neg; exact ⟨hu, hr⟩
  simp only [joinRoom, if_neg hcond, hb]
  refine ⟨by simp [setFun2], ?_, by trivial, by trivial⟩
  by_cases hmem : userId ∈ st.membersMap roomId <;>
    simp [setMembers, sadd, hmem]

/-- C1 (witness for the amended claim): joining the never-initialised
room `"room1"` of a fresh instance. -/
theorem claim_c1_join_writes_despite_missing_board_witness :
    (joinRoom stEmpty "alice" (some ("room1", "Alice")) "teal").1.userDetailsMap
        "room1" "alice" =
      some { userName := if "Alice" = "" then "Anonymous" else "Alice",
             color := "teal" } ∧
    "alice" ∈ (joinRoom stEmpty "alice" (some ("room1", "Alice")) "teal").1.membersMap
        "room1" ∧
    (joinRoom stEmpty "alice" (some ("room1", "Alice")) "teal").1.boards
        "room1" = none ∧
    (joinRoom stEmpty "alice" (some ("room1", "Alice")) "teal").2 = [] :=
  claim_c1_join_writes_despite_missing_board stEmpty "alice" "room1" "Alice"
    "teal" (by decide) (by decide) rfl

/-- C6 (counterexample): a member with no entry in the local registry
is NOT always delivered to via the bus: member `"bob"` of room `"r6"`
has no status key, so `send` skips him entirely and the broadcast
publishes nothing on the bus. -/
theorem claim_c6_counterexample :
    "bob" ∈ c6xSt.membersMap "r6" ∧ "bob" ≠ "alice" ∧
    c6xSt.clients "bob" = none ∧
    broadCastRoom c6xSt "alice" "draw-element" "r6" = [] := by
  decide

end XDraw
